import Mathlib

/-!
Shallow embedding of the asynchronous Yellow Pages crawler
(`src/ScrapersPre/GScraper.py` and `src/ScrapersPre/GSscraper.py`).

The two async variants share the same value-level logic (fetch, listing
extraction, detail extraction, orchestration); they differ only in where the
randomized delay is placed, which is modelled separately by event traces.

Python strings are modelled as Lean `String`, `lxml` documents as an abstract
`xpath` evaluator from query strings to node lists (a query may raise, which
is modelled by `Except`), and Python exceptions as the `PyErr` error type.
-/

/-- Python `str.strip()` whitespace set (space, tab, newline, carriage return,
vertical tab, form feed). -/
def isPySpace (c : Char) : Bool :=
  c == ' ' || c == '\t' || c == '\n' || c == '\r' || c == '\x0b' || c == '\x0c'

/-- Python `str.strip()` on a list of characters: drop whitespace from both ends. -/
def pyStripList (l : List Char) : List Char :=
  ((l.dropWhile isPySpace).reverse.dropWhile isPySpace).reverse

/-- Python `str.strip()`. -/
def pyStrip (s : String) : String :=
  ⟨pyStripList s.data⟩

/-- ASCII lower-casing of one character, as used to model `re.IGNORECASE`
matching of the all-ASCII pattern literal in the source. -/
def asciiLower (c : Char) : Char :=
  if 'A' ≤ c ∧ c ≤ 'Z' then Char.ofNat (c.toNat + 32) else c

/-- Python `str.replace(pat, rep)` over character lists: replace every
non-overlapping occurrence of `pat`, scanning left to right. (The source only
ever calls it with the non-empty literals `"mailto:"` and `"rating-stars "`.) -/
def replaceAll (pat rep : List Char) : List Char → List Char
  | [] => []
  | c :: rest =>
    if pat.isPrefixOf (c :: rest) ∧ 0 < pat.length then
      rep ++ replaceAll pat rep (rest.drop (pat.length - 1))
    else
      c :: replaceAll pat rep rest
termination_by l => l.length
decreasing_by
  · simp only [List.length_drop, List.length_cons]
    omega
  · simp only [List.length_cons]
    omega

/-- Python `s.replace(pat, rep)`. -/
def pyReplace (s pat rep : String) : String :=
  ⟨replaceAll pat.data rep.data s.data⟩

/-- Python `re.sub(r"[()]", "", s)`: remove every parenthesis character. -/
def removeParens (s : String) : String :=
  ⟨s.data.filter (fun c => !(c == '(' || c == ')'))⟩

/-- Python `' '.join(strings)`. -/
def joinSpace : List String → String
  | [] => ""
  | [s] => s
  | s :: rest => s ++ " " ++ joinSpace rest

/-- Python exceptions that the scraper code can raise or catch. -/
inductive PyErr where
  /-- `KeyError` from `SELECTORS[key]` on a missing key. -/
  | keyError
  /-- `lxml.etree.XPathEvalError` from an invalid query. -/
  | xpathError
  /-- `AttributeError` from calling an element method on a string result. -/
  | attrError
  /-- `aiohttp.ClientError` (including the non-2xx `ClientResponseError`). -/
  | clientError
  /-- `asyncio.TimeoutError`. -/
  | timeoutError
  /-- Any other exception (caught by the bare `except Exception` clauses). -/
  | otherError
  deriving DecidableEq

/-- One result of an `lxml` xpath query: either a plain string (attribute or
text selectors) or an element with a text content and an attribute map. -/
inductive XNode where
  | str (s : String)
  | elem (text : String) (attrs : List (String × String))
  deriving DecidableEq

/-- A parsed document: `tree.xpath(query)` returns a node list or raises. -/
structure Doc where
  xpath : String → Except PyErr (List XNode)

/-- The loaded selector mapping (`SELECTORS`), a dict from logical field name
to query string. -/
abbrev Selectors := List (String × String)

/-- Python `SELECTORS[key]`: raises `KeyError` when the key is absent. -/
def selGet (sel : Selectors) (key : String) : Except PyErr String :=
  match sel.lookup key with
  | some q => .ok q
  | none => .error .keyError

/-- `tree.xpath(SELECTORS[key])`: selector lookup followed by query evaluation,
either of which can raise. -/
def xpathOf (sel : Selectors) (doc : Doc) (key : String) : Except PyErr (List XNode) :=
  match selGet sel key with
  | .error e => .error e
  | .ok q => doc.xpath q

/-- The generator `(el.text_content() for el in elements)`: collects the text
of element nodes, raising `AttributeError` at the first plain-string node. -/
def textContents : List XNode → Except PyErr (List String)
  | [] => .ok []
  | .str _ :: _ => .error .attrError
  | .elem t _ :: rest => (textContents rest).map (fun ts => t :: ts)

/-! ## Fetcher (`fetch_and_parse`, GScraper.py lines 33-54 and
GSscraper.py lines 108-132; both variants have identical value behaviour). -/

/-- What the network does for one `session.get`: a network error, a timeout,
or a response with an HTTP status and a body. -/
inductive HttpEvent where
  | netError
  | timeout
  | response (status : Nat) (body : String)

/-- The body of `fetch_and_parse`'s `try` block. `response.raise_for_status()`
raises `ClientResponseError` (a `ClientError`) exactly when the status is >= 400
(the source's own comment: "Raise exception for bad status codes (4xx or 5xx)");
an empty body returns `None` without parsing; `html.fromstring` (the `parse`
argument) may raise, modelled by its `Except` result. -/
def fetchTryBody (parse : String → Except PyErr Doc) : HttpEvent → Except PyErr (Option Doc)
  | .netError => .error .clientError
  | .timeout => .error .timeoutError
  | .response status body =>
    if 400 ≤ status then .error .clientError
    else if body = "" then .ok none
    else
      match parse body with
      | .error e => .error e
      | .ok doc => .ok (some doc)

/-- `fetch_and_parse`: every exception raised in the `try` block is caught by
the `except aiohttp.ClientError / asyncio.TimeoutError / Exception` clauses,
each of which returns `None`. -/
def fetch_and_parse (parse : String → Except PyErr Doc) (ev : HttpEvent) : Option Doc :=
  match fetchTryBody parse ev with
  | .error _ => none
  | .ok r => r

/-! ## Listing extraction (`get_business_urls_from_page`, GScraper.py lines
58-101 and GSscraper.py lines 136-174). The function mutates the locals
`business_links` and `category` inside a `try` block whose handlers return the
partially assigned values, so the embedding threads each assignment
explicitly. -/

/-- The test `re.search("^No results found for.*", page_content, re.IGNORECASE)
is not None`: the pattern is anchored at the start of the string (no MULTILINE
flag), so it holds exactly when the text starts, case-insensitively, with the
literal. ASCII case folding models `re.IGNORECASE` on this all-ASCII literal. -/
def matchesNoResults (s : String) : Bool :=
  ("No results found for".data.map asciiLower).isPrefixOf (s.data.map asciiLower)

/-- The comprehension body
`f"https://www.yellowpages.com{link}" for link in raw_links if isinstance(link, str)`:
string results are prefixed with the site origin unconditionally, every other
result is dropped. -/
def toLink : XNode → Option String
  | .str s => some ("https://www.yellowpages.com" ++ s)
  | .elem _ _ => none

/-- Lines `category_elements = tree.xpath(SELECTORS['categories'])` and
`category = ' '.join(el.text_content() for el in category_elements).strip()`
guarded by `if category_elements:` (`category` stays `None` when no node
matched). -/
def categoriesStep (sel : Selectors) (doc : Doc) : Except PyErr (Option String) :=
  match xpathOf sel doc "categories" with
  | .error e => .error e
  | .ok [] => .ok none
  | .ok es => (textContents es).map (fun ts => some (pyStrip (joinSpace ts)))

/-- Lines `raw_links = tree.xpath(SELECTORS['business_urls'])` and the list
comprehension building `business_links`. -/
def linksStep (sel : Selectors) (doc : Doc) : Except PyErr (List String) :=
  match xpathOf sel doc "business_urls" with
  | .error e => .error e
  | .ok raw => .ok (raw.filterMap toLink)

/-- Lines `page_content_elements = tree.xpath(SELECTORS['page_content'])` and
`page_content = ' '.join(el.text_content() for el in page_content_elements).strip()`. -/
def pageContentStep (sel : Selectors) (doc : Doc) : Except PyErr String :=
  match xpathOf sel doc "page_content" with
  | .error e => .error e
  | .ok es => (textContents es).map (fun ts => pyStrip (joinSpace ts))

/-- `get_business_urls_from_page`, applied to the result of
`fetch_and_parse` (`none` on fetch failure). The `except` handlers
(`KeyError` / `XPathEvalError` / `Exception`, all returning the current
`business_links, category`) make an error at each step yield the locals
assigned so far. -/
def get_business_urls_from_page (sel : Selectors) (fetched : Option Doc) :
    List String × Option String :=
  match fetched with
  | none => ([], none)
  | some doc =>
    match categoriesStep sel doc with
    | .error _ => ([], none)
    | .ok category =>
      match linksStep sel doc with
      | .error _ => ([], category)
      | .ok links =>
        match pageContentStep sel doc with
        | .error _ => (links, category)
        | .ok pageContent =>
          if matchesNoResults pageContent then ([], category)
          else (links, category)

/-! ## Detail extraction (`scrape_business_details`, GScraper.py lines 104-156
and GSscraper.py lines 177-225). -/

/-- One business record: the keys of the `details` dict built by
`scrape_business_details`. -/
structure BusinessRecord where
  business : String
  contact : String
  email : String
  address : String
  mapAndDirection : String
  review : String
  reviewCount : String
  hyperlink : String
  images : String
  website : String
  deriving DecidableEq

/-- Helper `safe_xpath_get_text`: join the text of all matched elements with
single spaces and strip, or the empty-string default when nothing matched. -/
def safeGetText (sel : Selectors) (doc : Doc) (key : String) : Except PyErr String :=
  match xpathOf sel doc key with
  | .error e => .error e
  | .ok [] => .ok ""
  | .ok es => (textContents es).map (fun ts => pyStrip (joinSpace ts))

/-- Helper `safe_xpath_get_attrib`: take the named attribute of the first
matched element (empty-string default, stripped), the empty-string default when
nothing matched; a plain-string first result raises `AttributeError`. -/
def safeGetAttrib (sel : Selectors) (doc : Doc) (key attrib : String) : Except PyErr String :=
  match xpathOf sel doc key with
  | .error e => .error e
  | .ok [] => .ok ""
  | .ok (.str _ :: _) => .error .attrError
  | .ok (.elem _ attrs :: _) => .ok (pyStrip ((attrs.lookup attrib).getD ""))

/-- The `details = { ... }` dict literal: each value expression is evaluated in
source order, and the first raised exception aborts the whole construction. -/
def buildDetails (sel : Selectors) (doc : Doc) (businessUrl : String) :
    Except PyErr BusinessRecord :=
  match safeGetText sel doc "business_name" with
  | .error e => .error e
  | .ok business =>
  match safeGetText sel doc "contact" with
  | .error e => .error e
  | .ok contact =>
  match safeGetText sel doc "email" with
  | .error e => .error e
  | .ok email =>
  match safeGetText sel doc "address" with
  | .error e => .error e
  | .ok address =>
  match safeGetAttrib sel doc "map_and_direction" "href" with
  | .error e => .error e
  | .ok mapHref =>
  match safeGetAttrib sel doc "review" "class" with
  | .error e => .error e
  | .ok reviewCls =>
  match safeGetText sel doc "review_count" with
  | .error e => .error e
  | .ok reviewCnt =>
  match safeGetAttrib sel doc "images" "src" with
  | .error e => .error e
  | .ok images =>
  match safeGetAttrib sel doc "website" "href" with
  | .error e => .error e
  | .ok website =>
    .ok { business := business
          contact := contact
          email := pyReplace email "mailto:" ""
          address := address
          mapAndDirection := "https://www.yellowpages.com" ++ mapHref
          review := pyReplace reviewCls "rating-stars " ""
          reviewCount := removeParens reviewCnt
          hyperlink := businessUrl
          images := images
          website := website }

/-- `scrape_business_details`, applied to the result of `fetch_and_parse`.
Every exception from the `try` block (`KeyError`, `XPathEvalError`, bare
`Exception`) returns `None`; on success the record is kept only when
`details.get("Business")` is truthy, i.e. the business name is non-empty. -/
def scrape_business_details (sel : Selectors) (fetched : Option Doc)
    (businessUrl : String) : Option BusinessRecord :=
  match fetched with
  | none => none
  | some doc =>
    match buildDetails sel doc businessUrl with
    | .error _ => none
    | .ok details =>
      if details.business = "" then none else some details

/-! ## Orchestrator (`run_scraper`, GScraper.py lines 161-235 and
GSscraper.py lines 230-308). -/

/-- Adding one element to a Python `set`, with insertion order retained so
that the merged collection is a concrete list. -/
def setInsert (acc : List String) (u : String) : List String :=
  if u ∈ acc then acc else acc ++ [u]

/-- The phase-1 merge loop:
`for business_urls, category in results_urls: if business_urls:
all_business_urls.update(business_urls)`. -/
def mergeBusinessUrls (results : List (List String × Option String)) : List String :=
  results.foldl (fun acc r => if r.1.isEmpty then acc else r.1.foldl setInsert acc) []

/-- The loop `if category: categories_found.append(category)` (Python
truthiness: `None` and the empty string are both skipped). -/
def categoriesFound (results : List (List String × Option String)) : List String :=
  results.foldl
    (fun acc r =>
      match r.2 with
      | some c => if c = "" then acc else acc ++ [c]
      | none => acc)
    []

/-- `category_name = categories_found[0] if categories_found else "Unknown_Category"`. -/
def categoryName (results : List (List String × Option String)) : String :=
  match categoriesFound results with
  | [] => "Unknown_Category"
  | c :: _ => c

/-- The character class of `re.sub(r'[\\/*?:"<>|]', "", category_name)`. -/
def isUnsafeChar (c : Char) : Bool :=
  c == '\\' || c == '/' || c == '*' || c == '?' || c == ':' || c == '"' ||
    c == '<' || c == '>' || c == '|'

/-- `re.sub(r'[\\/*?:"<>|]', "", s)`: delete the filesystem-unsafe characters. -/
def stripUnsafe (s : String) : String :=
  ⟨s.data.filter (fun c => !(isUnsafeChar c))⟩

/-- Lines `sanitized_category = re.sub(...).strip()` and the
`"General_Scrape"` fallback when sanitization leaves the empty string. -/
def sanitizedCategory (results : List (List String × Option String)) : String :=
  if pyStrip (stripUnsafe (categoryName results)) = "" then "General_Scrape"
  else pyStrip (stripUnsafe (categoryName results))

/-- `output_file = OUTPUT_DIR / f"{sanitized_category}.xlsx"` (file name part). -/
def outputFileName (results : List (List String × Option String)) : String :=
  sanitizedCategory results ++ ".xlsx"

/-- `final_data = [details for details in results_details if details is not None]`. -/
def finalData (results : List (Option BusinessRecord)) : List BusinessRecord :=
  results.filterMap id

/-! ## Event traces for the delay placement (C7) and single-request property.
`FetchEv.sleepEv lo hi` is `await asyncio.sleep(randomTime(lo, hi))`;
`FetchEv.requestEv url` is `session.get(url, ...)`. -/

/-- Observable events of one fetch, in program order. -/
inductive FetchEv where
  | sleepEv (lo hi : ℚ)
  | requestEv (url : String)
  deriving DecidableEq

/-- Events of `GSscraper.fetch_and_parse` (lines 108-132): the randomized
2.0-5.0 second delay is awaited, then the single request is issued. -/
def fetchEventsGS (url : String) : List FetchEv :=
  [.sleepEv 2 5, .requestEv url]

/-- Events of `GScraper.fetch_and_parse` (lines 33-54): the single request is
issued with no delay of any kind inside the function. -/
def fetchEventsG (url : String) : List FetchEv :=
  [.requestEv url]

/-- A trace applies a delay before the request: every request event is
preceded by some sleep event. -/
def delayBeforeRequest (tr : List FetchEv) : Prop :=
  ∀ j url, tr.get? j = some (.requestEv url) →
    ∃ i lo hi, i < j ∧ tr.get? i = some (.sleepEv lo hi)

/-- Number of HTTP requests issued in a trace. -/
def countRequests : List FetchEv → Nat
  | [] => 0
  | .requestEv _ :: rest => countRequests rest + 1
  | _ :: rest => countRequests rest

/-! ## Concurrency gate (C9): `asyncio.Semaphore(CONCURRENT_REQUEST_LIMIT)`.
Each scraping task executes `async with semaphore:` around its fetch, so a
task is `inFlight` exactly while it holds a permit, i.e. while its fetch may
be in progress. `acquire` decrements the permit count when positive (otherwise
the task keeps waiting); `release` restores it. -/

/-- The lifecycle of one semaphore-guarded scraping task. -/
inductive TStat where
  | waiting
  | inFlight
  | done
  deriving DecidableEq

/-- Global state: remaining permits plus the state of every queued task. -/
structure PoolState where
  permits : Nat
  tasks : List TStat
  deriving DecidableEq

/-- Initial state for limit `L` and `N` queued tasks: `asyncio.Semaphore(L)`
fresh, all tasks created eagerly by `asyncio.create_task` and not yet admitted. -/
def initPool (L N : Nat) : PoolState :=
  ⟨L, List.replicate N .waiting⟩

/-- One scheduler step: a waiting task acquires the semaphore (possible only
when a permit remains) and issues its fetch, or an admitted task finishes and
releases its permit. -/
inductive PoolStep : PoolState → PoolState → Prop where
  | acquire (s : PoolState) (i : Nat)
      (h : s.tasks.get? i = some .waiting) (hp : 0 < s.permits) :
      PoolStep s ⟨s.permits - 1, s.tasks.set i .inFlight⟩
  | release (s : PoolState) (i : Nat)
      (h : s.tasks.get? i = some .inFlight) :
      PoolStep s ⟨s.permits + 1, s.tasks.set i .done⟩

/-- States reachable from `initPool L N` by scheduler steps. -/
inductive PoolReach (L N : Nat) : PoolState → Prop where
  | init : PoolReach L N (initPool L N)
  | step {s t : PoolState} : PoolReach L N s → PoolStep s t → PoolReach L N t

/-- Number of tasks whose fetch is currently in flight. -/
def countInFlight : List TStat → Nat
  | [] => 0
  | .inFlight :: rest => countInFlight rest + 1
  | _ :: rest => countInFlight rest

/-- A state in which no scheduler step is possible (the run has finished). -/
def poolTerminal (s : PoolState) : Prop :=
  ∀ t, ¬ PoolStep s t

/-! ## Concrete documents and selector tables used by witnesses and
counterexamples. -/

/-- A document on which every query matches nothing. -/
def docAllEmpty : Doc := ⟨fun _ => .ok []⟩

/-- A selector table containing only the business-name key. -/
def selOnlyName : Selectors := [("business_name", "qbn")]

/-- A full listing selector table. -/
def selListing : Selectors :=
  [("categories", "qc"), ("business_urls", "qb"), ("page_content", "qp")]

/-- A listing selector table whose `page_content` key is missing. -/
def selNoPageContent : Selectors := [("categories", "qc"), ("business_urls", "qb")]

/-- A no-results listing page on which the business-URL selector nevertheless
matches a node. -/
def docNoResults : Doc :=
  ⟨fun q =>
    if q = "qb" then .ok [.str "/biz1", .elem "ad" []]
    else if q = "qp" then .ok [.elem "No Results Found For plumbers near you" []]
    else .ok []⟩

/-- A listing page with a category and one business link. -/
def docPizza : Doc :=
  ⟨fun q =>
    if q = "qc" then .ok [.elem "Pizza" []]
    else if q = "qb" then .ok [.str "/biz"]
    else .ok []⟩

/-- A listing page whose business-URL selector also yields an already-absolute
URL, and whose page content is empty. -/
def docAbsolute : Doc :=
  ⟨fun q =>
    if q = "qb" then
      .ok [.elem "ad" [], .str "https://www.yellowpages.com/a", .str "/rel"]
    else .ok []⟩

/-- A parser that always succeeds with the trivial document. -/
def parseOk : String → Except PyErr Doc := fun _ => .ok docAllEmpty

/-- A parser that always raises, modelling a body `html.fromstring` rejects. -/
def parseFail : String → Except PyErr Doc := fun _ => .error .otherError

/-! ## Helper lemmas: Python set insertion (phase-1 merge). -/

lemma mem_setInsert {acc : List String} {u v : String} :
    v ∈ setInsert acc u ↔ v ∈ acc ∨ v = u := by
  by_cases hm : u ∈ acc
  · simp only [setInsert, if_pos hm]
    exact ⟨Or.inl, fun h => h.elim id (fun hv => hv ▸ hm)⟩
  · simp [setInsert, if_neg hm]

lemma nodup_setInsert {acc : List String} {u : String} (h : acc.Nodup) :
    (setInsert acc u).Nodup := by
  by_cases hm : u ∈ acc
  · simpa [setInsert, if_pos hm] using h
  · simp only [setInsert, if_neg hm]
    rw [List.nodup_append]
    exact ⟨h, List.nodup_singleton u, fun a ha hb => by
      simp only [List.mem_singleton] at hb
      exact hm (hb ▸ ha)⟩

lemma mem_foldl_setInsert (ls : List String) (acc : List String) (v : String) :
    v ∈ ls.foldl setInsert acc ↔ v ∈ acc ∨ v ∈ ls := by
  induction ls generalizing acc with
  | nil => simp
  | cons x xs ih =>
    rw [List.foldl_cons, ih, mem_setInsert]
    simp only [List.mem_cons]
    tauto

lemma nodup_foldl_setInsert (ls : List String) (acc : List String) (h : acc.Nodup) :
    (ls.foldl setInsert acc).Nodup := by
  induction ls generalizing acc with
  | nil => simpa
  | cons x xs ih => exact ih _ (nodup_setInsert h)

lemma mem_merge_aux (results : List (List String × Option String)) (acc : List String)
    (v : String) :
    v ∈ results.foldl
        (fun acc r => if r.1.isEmpty then acc else r.1.foldl setInsert acc) acc ↔
      v ∈ acc ∨ ∃ r ∈ results, v ∈ r.1 := by
  induction results generalizing acc with
  | nil => simp
  | cons p ps ih =>
    rw [List.foldl_cons]
    by_cases hp : p.1.isEmpty
    · rw [if_pos hp, ih]
      have hnil : p.1 = [] := List.isEmpty_iff.mp hp
      simp [hnil]
    · rw [if_neg hp, ih, mem_foldl_setInsert]
      simp only [List.mem_cons]
      constructor
      · rintro (⟨h | h⟩ | ⟨r, hr, hv⟩)
        · exact Or.inl h
        · exact Or.inr ⟨p, Or.inl rfl, h⟩
        · exact Or.inr ⟨r, Or.inr hr, hv⟩
      · rintro (h | ⟨r, rfl | hr, hv⟩)
        · exact Or.inl (Or.inl h)
        · exact Or.inl (Or.inr hv)
        · exact Or.inr ⟨r, hr, hv⟩

lemma nodup_merge_aux (results : List (List String × Option String)) (acc : List String)
    (h : acc.Nodup) :
    (results.foldl
        (fun acc r => if r.1.isEmpty then acc else r.1.foldl setInsert acc) acc).Nodup := by
  induction results generalizing acc with
  | nil => simpa
  | cons p ps ih =>
    rw [List.foldl_cons]
    by_cases hp : p.1.isEmpty
    · rw [if_pos hp]; exact ih _ h
    · rw [if_neg hp]; exact ih _ (nodup_foldl_setInsert _ _ h)

/-! ## Helper lemmas: category collection and sanitization. -/

lemma categoriesFound_eq_filterMap (results : List (List String × Option String)) :
    categoriesFound results =
      results.filterMap (fun r =>
        match r.2 with
        | some c => if c = "" then none else some c
        | none => none) := by
  suffices h : ∀ acc : List String,
      results.foldl
        (fun acc r =>
          match r.2 with
          | some c => if c = "" then acc else acc ++ [c]
          | none => acc) acc
      = acc ++ results.filterMap (fun r =>
          match r.2 with
          | some c => if c = "" then none else some c
          | none => none) by
    simpa [categoriesFound] using h []
  induction results with
  | nil => intro acc; simp
  | cons p ps ih =>
    intro acc
    rw [List.foldl_cons, List.filterMap_cons]
    cases hp : p.2 with
    | none => simp only [hp, ih]
    | some c =>
      by_cases hc : c = ""
      · simp only [hp, if_pos hc, ih]
      · simp only [hp, if_neg hc, ih, List.append_assoc, List.singleton_append]

lemma mem_of_mem_dropWhile {α : Type} {p : α → Bool} {a : α} {l : List α}
    (h : a ∈ l.dropWhile p) : a ∈ l :=
  (List.dropWhile_sublist p).subset h

lemma mem_of_mem_pyStripList {c : Char} {l : List Char} (h : c ∈ pyStripList l) : c ∈ l := by
  unfold pyStripList at h
  have h1 := mem_of_mem_dropWhile (List.mem_reverse.mp h)
  exact mem_of_mem_dropWhile (List.mem_reverse.mp h1)

/-! ## Helper lemmas: detail extraction. -/

lemma buildDetails_ok_business {sel : Selectors} {doc : Doc} {url b : String}
    {d : BusinessRecord} (hb : safeGetText sel doc "business_name" = .ok b)
    (hd : buildDetails sel doc url = .ok d) : d.business = b := by
  unfold buildDetails at hd
  rw [hb] at hd
  repeat' split at hd
  all_goals simp_all
  exact (congrArg BusinessRecord.business hd.symm)

lemma scrape_some_business {sel : Selectors} {fetched : Option Doc} {url : String}
    {r : BusinessRecord} (h : scrape_business_details sel fetched url = some r) :
    r.business ≠ "" := by
  cases fetched with
  | none => simp [scrape_business_details] at h
  | some doc =>
    cases hb : buildDetails sel doc url with
    | error e => simp [scrape_business_details, hb] at h
    | ok d =>
      simp only [scrape_business_details, hb] at h
      by_cases hbe : d.business = ""
      · simp [hbe] at h
      · rw [if_neg hbe] at h
        cases h
        exact hbe

/-! ## Helper lemmas: semaphore pool. -/

lemma countInFlight_replicate (n : Nat) :
    countInFlight (List.replicate n .waiting) = 0 := by
  induction n with
  | zero => rfl
  | succ m ih => simpa [List.replicate, countInFlight] using ih

lemma countInFlight_set_acquire {l : List TStat} {i : Nat}
    (h : l.get? i = some .waiting) :
    countInFlight (l.set i .inFlight) = countInFlight l + 1 := by
  induction l generalizing i with
  | nil => simp at h
  | cons x xs ih =>
    cases i with
    | zero =>
      simp only [List.get?_cons_zero, Option.some_inj] at h
      subst h
      simp [countInFlight]
    | succ n =>
      simp only [List.get?_cons_succ] at h
      cases x <;> simp [countInFlight, List.set, ih h]

lemma countInFlight_set_release {l : List TStat} {i : Nat}
    (h : l.get? i = some .inFlight) :
    countInFlight l = countInFlight (l.set i .done) + 1 := by
  induction l generalizing i with
  | nil => simp at h
  | cons x xs ih =>
    cases i with
    | zero =>
      simp only [List.get?_cons_zero, Option.some_inj] at h
      subst h
      simp [countInFlight]
    | succ n =>
      simp only [List.get?_cons_succ] at h
      cases x <;> simp [countInFlight, List.set, ih h]

lemma countInFlight_pos_get? {l : List TStat} (h : 0 < countInFlight l) :
    ∃ i, l.get? i = some .inFlight := by
  induction l with
  | nil => simp [countInFlight] at h
  | cons x xs ih =>
    cases x with
    | inFlight => exact ⟨0, rfl⟩
    | waiting =>
      obtain ⟨i, hi⟩ := ih (by simpa [countInFlight] using h)
      exact ⟨i + 1, by simpa using hi⟩
    | done =>
      obtain ⟨i, hi⟩ := ih (by simpa [countInFlight] using h)
      exact ⟨i + 1, by simpa using hi⟩

lemma pool_invariant {L N : Nat} {s : PoolState} (h : PoolReach L N s) :
    s.permits + countInFlight s.tasks = L ∧ s.tasks.length = N := by
  induction h with
  | init => simp [initPool, countInFlight_replicate]
  | step hs hstep ih =>
    obtain ⟨inv, len⟩ := ih
    cases hstep with
    | acquire i hi hp =>
      refine ⟨?_, by simpa using len⟩
      dsimp only
      rw [countInFlight_set_acquire hi]
      omega
    | release i hi =>
      refine ⟨?_, by simpa using len⟩
      dsimp only
      have := countInFlight_set_release hi
      omega

lemma pool_terminal_all_done {L N : Nat} {s : PoolState} (hL : 0 < L)
    (h : PoolReach L N s) (ht : poolTerminal s) :
    ∀ t ∈ s.tasks, t = TStat.done := by
  intro t htm
  obtain ⟨inv, _len⟩ := pool_invariant h
  cases t with
  | done => rfl
  | inFlight =>
    obtain ⟨i, hi⟩ := List.get?_of_mem htm
    exact absurd (PoolStep.release s i hi) (ht _)
  | waiting =>
    obtain ⟨i, hi⟩ := List.get?_of_mem htm
    by_cases hp : 0 < s.permits
    · exact absurd (PoolStep.acquire s i hi hp) (ht _)
    · have hcount : 0 < countInFlight s.tasks := by omega
      obtain ⟨j, hj⟩ := countInFlight_pos_get? hcount
      exact absurd (PoolStep.release s j hj) (ht _)

/-! ## Remaining concrete inputs for witnesses. -/

/-- An empty selector table (every required key missing). -/
def selEmpty : Selectors := []

/-- Phase-1 results with one URL referenced from two listing pages. -/
def resultsW2 : List (List String × Option String) :=
  [(["https://www.yellowpages.com/a"], none),
   (["https://www.yellowpages.com/a", "https://www.yellowpages.com/b"], some "Pizza")]

/-- Listing pages before the first non-empty category. -/
def preW8 : List (List String × Option String) :=
  [([], none), (["https://www.yellowpages.com/a"], some "")]

/-- Listing pages after the first non-empty category. -/
def restW8 : List (List String × Option String) := [([], some "Bakery")]

/-- Phase-1 results whose only category sanitizes to the empty string. -/
def resultsW8b : List (List String × Option String) := [([], some "???")]

/-! ## Claim theorems. -/

/-- C1: a business record appears in the final export collection only with a
non-empty "Business" field, and a detail page whose business-name selector
matches nothing (so the empty-string default is used) produces no record;
records surviving the orchestrator's `None` filter all have non-empty names. -/
theorem c1_record_completeness :
    (∀ (sel : Selectors) (doc : Doc) (url q : String),
        sel.lookup "business_name" = some q → doc.xpath q = .ok [] →
        scrape_business_details sel (some doc) url = none)
    ∧ (∀ (results : List (Option BusinessRecord)) (r : BusinessRecord),
        (∀ x ∈ results, ∃ sel fetched url, x = scrape_business_details sel fetched url) →
        r ∈ finalData results → r.business ≠ "") := by
  constructor
  · intro sel doc url q hq hx
    have hname : safeGetText sel doc "business_name" = .ok "" := by
      simp [safeGetText, xpathOf, selGet, hq, hx]
    cases hb : buildDetails sel doc url with
    | error e => simp [scrape_business_details, hb]
    | ok d =>
      have hd : d.business = "" := buildDetails_ok_business hname hb
      simp [scrape_business_details, hb, hd]
  · intro results r hall hr
    simp only [finalData, List.mem_filterMap, id] at hr
    obtain ⟨x, hx, hxr⟩ := hr
    obtain ⟨sel, fetched, url, rfl⟩ := hall x hx
    exact scrape_some_business hxr

/-- Witness for C1 at a concrete page on which the business-name selector
matches nothing. -/
theorem c1_witness :
    selOnlyName.lookup "business_name" = some "qbn" ∧
    docAllEmpty.xpath "qbn" = .ok [] ∧
    scrape_business_details selOnlyName (some docAllEmpty)
      "https://www.yellowpages.com/x" = none := by
  have h1 : selOnlyName.lookup "business_name" = some "qbn" := by decide
  exact ⟨h1, rfl,
    c1_record_completeness.1 selOnlyName docAllEmpty "https://www.yellowpages.com/x"
      "qbn" h1 rfl⟩

/-- C2: the phase-1 merge produces a duplicate-free collection containing
exactly the URLs returned by some listing page; hence phase 2, which issues
one detail fetch per element of the merged collection, fetches each referenced
URL exactly once. -/
theorem c2_dedup_exactly_once (results : List (List String × Option String)) :
    (mergeBusinessUrls results).Nodup ∧
    (∀ u, u ∈ mergeBusinessUrls results ↔ ∃ r ∈ results, u ∈ r.1) ∧
    (∀ u, (∃ r ∈ results, u ∈ r.1) → (mergeBusinessUrls results).count u = 1) := by
  have hnodup : (mergeBusinessUrls results).Nodup :=
    nodup_merge_aux results [] List.nodup_nil
  have hmem : ∀ u, u ∈ mergeBusinessUrls results ↔ ∃ r ∈ results, u ∈ r.1 := by
    intro u
    rw [mergeBusinessUrls, mem_merge_aux]
    simp
  exact ⟨hnodup, hmem,
    fun u hu => List.count_eq_one_of_mem hnodup ((hmem u).mpr hu)⟩

/-- Witness for C2: a URL referenced by both listing pages appears exactly once
in the merged collection. -/
theorem c2_witness :
    (∃ r ∈ resultsW2, "https://www.yellowpages.com/a" ∈ r.1) ∧
    (mergeBusinessUrls resultsW2).count "https://www.yellowpages.com/a" = 1 :=
  ⟨by decide, (c2_dedup_exactly_once resultsW2).2.2 _ (by decide)⟩

/-- C3: on a listing page whose joined, stripped page-content text begins
case-insensitively with "No results found for", the extraction returns the
empty URL list (with whatever category was found), regardless of what the
business-URL selector matched. -/
theorem c3_no_results_short_circuit (sel : Selectors) (doc : Doc)
    (category : Option String) (links : List String) (pageContent : String)
    (hc : categoriesStep sel doc = .ok category)
    (hl : linksStep sel doc = .ok links)
    (hp : pageContentStep sel doc = .ok pageContent)
    (hm : matchesNoResults pageContent = true) :
    (get_business_urls_from_page sel (some doc)).1 = [] ∧
    get_business_urls_from_page sel (some doc) = ([], category) := by
  have h : get_business_urls_from_page sel (some doc) = ([], category) := by
    simp [get_business_urls_from_page, hc, hl, hp, hm]
  exact ⟨by rw [h], h⟩

/-- Witness for C3: a mixed-case no-results page on which the URL selector
nevertheless matched one node contributes no URLs. -/
theorem c3_witness :
    categoriesStep selListing docNoResults = .ok none ∧
    linksStep selListing docNoResults = .ok ["https://www.yellowpages.com/biz1"] ∧
    pageContentStep selListing docNoResults =
      .ok "No Results Found For plumbers near you" ∧
    matchesNoResults "No Results Found For plumbers near you" = true ∧
    (get_business_urls_from_page selListing (some docNoResults)).1 = [] := by
  have h1 : categoriesStep selListing docNoResults = .ok none := rfl
  have h2 : linksStep selListing docNoResults =
      .ok ["https://www.yellowpages.com/biz1"] := rfl
  have h3 : pageContentStep selListing docNoResults =
      .ok "No Results Found For plumbers near you" := rfl
  have h4 : matchesNoResults "No Results Found For plumbers near you" = true := by decide
  exact ⟨h1, h2, h3, h4,
    (c3_no_results_short_circuit selListing docNoResults none
      ["https://www.yellowpages.com/biz1"] "No Results Found For plumbers near you"
      h1 h2 h3 h4).1⟩

/-- C4 counterexample: the claim says any non-2xx status is a failure with no
body parsed, but `raise_for_status` only raises for statuses at or above 400,
so a 304 response with a parseable body yields a parsed document. -/
theorem c4_counterexample :
    ¬ (200 ≤ 304 ∧ 304 < 300) ∧
    fetch_and_parse parseOk (.response 304 "<html><body>cached</body></html>") =
      some docAllEmpty :=
  ⟨by decide, rfl⟩

/-- C4 amended: any 4xx or 5xx status, an empty body, a network error, a
timeout, and a parse exception each yield the single failure outcome `none`;
each fetch issues exactly one request (no retry). -/
theorem c4_amended (parse : String → Except PyErr Doc) (status : Nat) (body : String)
    (e : PyErr) (url : String) :
    (400 ≤ status → fetch_and_parse parse (.response status body) = none)
    ∧ fetch_and_parse parse (.response status "") = none
    ∧ fetch_and_parse parse .netError = none
    ∧ fetch_and_parse parse .timeout = none
    ∧ (parse body = .error e → fetch_and_parse parse (.response status body) = none)
    ∧ countRequests (fetchEventsGS url) = 1
    ∧ countRequests (fetchEventsG url) = 1 := by
  refine ⟨?_, ?_, rfl, rfl, ?_, rfl, rfl⟩
  · intro h
    simp [fetch_and_parse, fetchTryBody, if_pos h]
  · by_cases h : 400 ≤ status
    · simp [fetch_and_parse, fetchTryBody, if_pos h]
    · simp [fetch_and_parse, fetchTryBody, if_neg h]
  · intro hp
    by_cases h : 400 ≤ status
    · simp [fetch_and_parse, fetchTryBody, if_pos h]
    · by_cases hb : body = ""
      · simp [fetch_and_parse, fetchTryBody, if_neg h, hb]
      · simp [fetch_and_parse, fetchTryBody, if_neg h, hb, hp]

/-- Witness for C4 at a 404 response and at a body the parser rejects. -/
theorem c4_witness :
    400 ≤ 404 ∧ fetch_and_parse parseFail (.response 404 "x") = none ∧
    parseFail "bad" = .error .otherError ∧
    fetch_and_parse parseFail (.response 200 "bad") = none :=
  ⟨by decide,
   (c4_amended parseFail 404 "x" .otherError "u").1 (by decide),
   rfl,
   (c4_amended parseFail 200 "bad" .otherError "u").2.2.2.2.1 rfl⟩

/-- C5 counterexample: with every required selector key missing, both
extraction functions return the ordinary per-page failure values (the same
values a failed fetch produces) instead of stopping the run with a hard
error — the `KeyError` is caught and absorbed, so the missing key is not
fatal and not distinct from a per-page failure. -/
theorem c5_counterexample :
    selEmpty.lookup "categories" = none ∧
    get_business_urls_from_page selEmpty (some docPizza) = ([], none) ∧
    get_business_urls_from_page selEmpty (some docPizza) =
      get_business_urls_from_page selEmpty none ∧
    scrape_business_details selEmpty (some docPizza)
      "https://www.yellowpages.com/biz" = none ∧
    scrape_business_details selEmpty (some docPizza) "https://www.yellowpages.com/biz" =
      scrape_business_details selEmpty none "https://www.yellowpages.com/biz" :=
  ⟨rfl, rfl, rfl, rfl, rfl⟩

/-- C5 amended: a required selector key absent from the mapping is caught at
its first point of use inside the extraction functions and absorbed as an
ordinary per-page failure — the listing page yields `([], none)` and the
detail page yields no record, each indistinguishable from a fetch failure,
and the run continues. -/
theorem c5_amended (sel : Selectors) (doc : Doc) (url : String)
    (h1 : sel.lookup "categories" = none)
    (h2 : sel.lookup "business_name" = none) :
    get_business_urls_from_page sel (some doc) = ([], none) ∧
    get_business_urls_from_page sel (some doc) = get_business_urls_from_page sel none ∧
    scrape_business_details sel (some doc) url = none ∧
    scrape_business_details sel (some doc) url =
      scrape_business_details sel none url := by
  have hc : categoriesStep sel doc = .error .keyError := by
    simp [categoriesStep, xpathOf, selGet, h1]
  have hb : safeGetText sel doc "business_name" = .error .keyError := by
    simp [safeGetText, xpathOf, selGet, h2]
  have g1 : get_business_urls_from_page sel (some doc) = ([], none) := by
    simp [get_business_urls_from_page, hc]
  have g3 : scrape_business_details sel (some doc) url = none := by
    simp [scrape_business_details, buildDetails, hb]
  exact ⟨g1, by rw [g1]; rfl, g3, by rw [g3]; rfl⟩

/-- Witness for C5 at the empty selector table. -/
theorem c5_witness :
    selEmpty.lookup "categories" = none ∧
    selEmpty.lookup "business_name" = none ∧
    scrape_business_details selEmpty (some docAllEmpty) "u" = none :=
  ⟨rfl, rfl, (c5_amended selEmpty docAllEmpty "u" rfl rfl).2.2.1⟩

/-- C6 counterexample: on a page whose `page_content` selector raises
(`KeyError`: the key is missing) after the category and business-URL selectors
succeeded, the extraction returns the already-extracted URLs and category, not
"zero URLs and no category" as the claim states. -/
theorem c6_counterexample :
    selNoPageContent.lookup "page_content" = none ∧
    get_business_urls_from_page selNoPageContent (some docPizza) =
      (["https://www.yellowpages.com/biz"], some "Pizza") ∧
    (["https://www.yellowpages.com/biz"], some "Pizza") ≠
      (([] : List String), (none : Option String)) :=
  ⟨rfl, rfl, by decide⟩

/-- C6 amended: a selector-evaluation error is caught locally and never
propagates (the extraction always returns a value), and the returned value is
whatever was extracted before the raising selector: zero URLs and no category
when the first (category) selector raises, the URLs and category accumulated
so far when a later selector raises. -/
theorem c6_amended (sel : Selectors) (doc : Doc) (e : PyErr)
    (category : Option String) (links : List String) :
    (categoriesStep sel doc = .error e →
      get_business_urls_from_page sel (some doc) = ([], none))
    ∧ (categoriesStep sel doc = .ok category → linksStep sel doc = .error e →
      get_business_urls_from_page sel (some doc) = ([], category))
    ∧ (categoriesStep sel doc = .ok category → linksStep sel doc = .ok links →
      pageContentStep sel doc = .error e →
      get_business_urls_from_page sel (some doc) = (links, category)) := by
  refine ⟨fun h => ?_, fun h1 h2 => ?_, fun h1 h2 h3 => ?_⟩
  · simp [get_business_urls_from_page, h]
  · simp [get_business_urls_from_page, h1, h2]
  · simp [get_business_urls_from_page, h1, h2, h3]

/-- Witness for C6: the third case of the amended claim at a concrete page
whose `page_content` key is missing. -/
theorem c6_witness :
    categoriesStep selNoPageContent docPizza = .ok (some "Pizza") ∧
    linksStep selNoPageContent docPizza = .ok ["https://www.yellowpages.com/biz"] ∧
    pageContentStep selNoPageContent docPizza = .error .keyError ∧
    get_business_urls_from_page selNoPageContent (some docPizza) =
      (["https://www.yellowpages.com/biz"], some "Pizza") := by
  have h1 : categoriesStep selNoPageContent docPizza = .ok (some "Pizza") := rfl
  have h2 : linksStep selNoPageContent docPizza =
      .ok ["https://www.yellowpages.com/biz"] := rfl
  have h3 : pageContentStep selNoPageContent docPizza = .error .keyError := rfl
  exact ⟨h1, h2, h3,
    (c6_amended selNoPageContent docPizza .keyError (some "Pizza")
      ["https://www.yellowpages.com/biz"]).2.2 h1 h2 h3⟩

/-- C7 counterexample: in the GScraper variant, `fetch_and_parse` issues its
request as the very first event, with no sleep event before it, so "for every
fetch a randomized delay is applied before the request" fails on this variant. -/
theorem c7_counterexample :
    (fetchEventsG "https://www.yellowpages.com/biz").get? 0 =
      some (.requestEv "https://www.yellowpages.com/biz") ∧
    ¬ delayBeforeRequest (fetchEventsG "https://www.yellowpages.com/biz") := by
  refine ⟨rfl, fun h => ?_⟩
  obtain ⟨i, lo, hi, hlt, _⟩ := h 0 "https://www.yellowpages.com/biz" rfl
  exact absurd hlt (Nat.not_lt_zero i)

/-- C7 amended: in the GSscraper variant every fetch awaits the randomized
delay drawn from the configured range [2, 5] seconds before issuing its
request; the GScraper variant's fetch contains no delay at all (its delays
occur after response processing, inside the extraction functions). -/
theorem c7_amended (url : String) :
    delayBeforeRequest (fetchEventsGS url) ∧
    (fetchEventsGS url).get? 0 = some (.sleepEv 2 5) ∧
    (fetchEventsGS url).get? 1 = some (.requestEv url) ∧
    (∀ lo hi, FetchEv.sleepEv lo hi ∉ fetchEventsG url) := by
  refine ⟨?_, rfl, rfl, by simp [fetchEventsG]⟩
  intro j u hj
  match j, hj with
  | 1, hj => exact ⟨0, 2, 5, Nat.zero_lt_one, rfl⟩

/-- Witness for C7 at a concrete URL. -/
theorem c7_witness :
    delayBeforeRequest (fetchEventsGS "https://www.yellowpages.com/x") ∧
    (fetchEventsGS "https://www.yellowpages.com/x").get? 0 = some (.sleepEv 2 5) :=
  ⟨(c7_amended "https://www.yellowpages.com/x").1,
   (c7_amended "https://www.yellowpages.com/x").2.1⟩

/-- C8: the artifact name comes from the first non-empty category in
listing-page iteration order, defaults to "Unknown_Category" when no page
yields one, never contains a filesystem-unsafe character and is never empty,
and falls back to "General_Scrape" when sanitization empties the string. -/
theorem c8_artifact_name :
    (∀ (pre : List (List String × Option String)) (p : List String) (c : String)
        (rest : List (List String × Option String)),
        c ≠ "" → (∀ q ∈ pre, q.2 = none ∨ q.2 = some "") →
        categoryName (pre ++ (p, some c) :: rest) = c)
    ∧ (∀ results, (∀ q ∈ results, q.2 = none ∨ q.2 = some "") →
        categoryName results = "Unknown_Category")
    ∧ (∀ results, sanitizedCategory results ≠ "" ∧
        ∀ ch ∈ (sanitizedCategory results).data, isUnsafeChar ch = false)
    ∧ (∀ results, pyStrip (stripUnsafe (categoryName results)) = "" →
        sanitizedCategory results = "General_Scrape") := by
  have hnone : ∀ (l : List (List String × Option String)),
      (∀ q ∈ l, q.2 = none ∨ q.2 = some "") →
      l.filterMap (fun r =>
        match r.2 with
        | some c => if c = "" then none else some c
        | none => none) = [] := by
    intro l hl
    refine List.filterMap_eq_nil_iff.mpr ?_
    intro q hq
    rcases hl q hq with h | h <;> simp [h]
  refine ⟨?_, ?_, ?_, ?_⟩
  · intro pre p c rest hc hpre
    have h1 : categoriesFound (pre ++ (p, some c) :: rest) =
        c :: ((p, some c) :: rest).tail.filterMap (fun r =>
          match r.2 with
          | some c => if c = "" then none else some c
          | none => none) := by
      rw [categoriesFound_eq_filterMap, List.filterMap_append, hnone pre hpre,
        List.filterMap_cons]
      simp [hc]
    rw [categoryName, h1]
  · intro results hall
    rw [categoryName, categoriesFound_eq_filterMap, hnone results hall]
  · intro results
    by_cases h : pyStrip (stripUnsafe (categoryName results)) = ""
    · rw [sanitizedCategory, if_pos h]
      exact ⟨by decide, by decide⟩
    · rw [sanitizedCategory, if_neg h]
      refine ⟨h, ?_⟩
      intro ch hch
      have hmem : ch ∈ (stripUnsafe (categoryName results)).data :=
        mem_of_mem_pyStripList hch
      have := List.mem_filter.mp hmem
      simpa using this.2
  · intro results h
    rw [sanitizedCategory, if_pos h]

/-- Witness for C8: the first non-empty category wins, and a category that
sanitizes away falls back to the fixed default. -/
theorem c8_witness :
    ("Pizza: NY" ≠ "") ∧ (∀ q ∈ preW8, q.2 = none ∨ q.2 = some "") ∧
    categoryName (preW8 ++ ([], some "Pizza: NY") :: restW8) = "Pizza: NY" ∧
    pyStrip (stripUnsafe (categoryName resultsW8b)) = "" ∧
    sanitizedCategory resultsW8b = "General_Scrape" := by
  have ha : ("Pizza: NY" : String) ≠ "" := by decide
  have hb : ∀ q ∈ preW8, q.2 = none ∨ q.2 = some "" := by decide
  have hc : pyStrip (stripUnsafe (categoryName resultsW8b)) = "" := by decide
  exact ⟨ha, hb, c8_artifact_name.1 preW8 [] "Pizza: NY" restW8 ha hb, hc,
    c8_artifact_name.2.2.2 resultsW8b hc⟩

/-- C9: in every state reachable under limit L with N queued tasks, at most L
fetches are in flight at once; the number of queued tasks stays N (the limit
never reduces the work issued), and when no further step is possible every
task has completed its fetch. -/
theorem c9_concurrency_bound (L N : Nat) (s : PoolState)
    (hL : 0 < L) (_hLN : L < N) (hreach : PoolReach L N s) :
    countInFlight s.tasks ≤ L ∧ s.tasks.length = N ∧
      (poolTerminal s → ∀ t ∈ s.tasks, t = TStat.done) := by
  obtain ⟨inv, len⟩ := pool_invariant hreach
  exact ⟨by omega, len, fun ht => pool_terminal_all_done hL hreach ht⟩

/-- Witness for C9 at limit 2 with 3 queued tasks, in the initial state. -/
theorem c9_witness :
    (0 < 2 ∧ 2 < 3) ∧
    countInFlight (initPool 2 3).tasks ≤ 2 ∧ (initPool 2 3).tasks.length = 3 :=
  ⟨by decide,
   (c9_concurrency_bound 2 3 (initPool 2 3) (by decide) (by decide) PoolReach.init).1,
   (c9_concurrency_bound 2 3 (initPool 2 3) (by decide) (by decide) PoolReach.init).2.1⟩

/-- C10: on a listing page (in the non-short-circuit case) the extracted URLs
are exactly the string results of the business-URL selector, each prefixed
unconditionally with the site origin (non-string results are dropped), so a
result that is already an absolute URL yields the doubled-origin string. -/
theorem c10_link_normalization (sel : Selectors) (doc : Doc) (raw : List XNode)
    (category : Option String) (pageContent : String)
    (hc : categoriesStep sel doc = .ok category)
    (hr : xpathOf sel doc "business_urls" = .ok raw)
    (hp : pageContentStep sel doc = .ok pageContent)
    (hm : matchesNoResults pageContent = false) :
    (∀ u, u ∈ (get_business_urls_from_page sel (some doc)).1 ↔
        ∃ s, XNode.str s ∈ raw ∧ u = "https://www.yellowpages.com" ++ s)
    ∧ (get_business_urls_from_page sel (some doc)).1.length =
        raw.countP (fun n => match n with | .str _ => true | .elem _ _ => false)
    ∧ (XNode.str "https://www.yellowpages.com/a" ∈ raw →
        "https://www.yellowpages.comhttps://www.yellowpages.com/a" ∈
          (get_business_urls_from_page sel (some doc)).1) := by
  have hl : linksStep sel doc = .ok (raw.filterMap toLink) := by
    simp [linksStep, hr]
  have hres : (get_business_urls_from_page sel (some doc)).1 = raw.filterMap toLink := by
    simp [get_business_urls_from_page, hc, hl, hp, hm]
  have hlen : ∀ l : List XNode, (l.filterMap toLink).length =
      l.countP (fun n => match n with | .str _ => true | .elem _ _ => false) := by
    intro l
    induction l with
    | nil => rfl
    | cons x xs ih => cases x <;> simp [toLink, List.countP_cons, ih]
  refine ⟨?_, by rw [hres]; exact hlen raw, ?_⟩
  · intro u
    rw [hres, List.mem_filterMap]
    constructor
    · rintro ⟨a, ha, hfa⟩
      cases a with
      | str s =>
        refine ⟨s, ha, ?_⟩
        simp only [toLink, Option.some_inj] at hfa
        exact hfa.symm
      | elem t as => simp [toLink] at hfa
    · rintro ⟨s, hs, rfl⟩
      exact ⟨.str s, hs, rfl⟩
  · intro habs
    rw [hres, List.mem_filterMap]
    exact ⟨.str "https://www.yellowpages.com/a", habs, rfl⟩

/-- Witness for C10: a page whose URL selector yields an element node, an
absolute URL and a relative path produces the doubled-origin string for the
absolute one. -/
theorem c10_witness :
    categoriesStep selListing docAbsolute = .ok none ∧
    xpathOf selListing docAbsolute "business_urls" =
      .ok [.elem "ad" [], .str "https://www.yellowpages.com/a", .str "/rel"] ∧
    pageContentStep selListing docAbsolute = .ok "" ∧
    matchesNoResults "" = false ∧
    "https://www.yellowpages.comhttps://www.yellowpages.com/a" ∈
      (get_business_urls_from_page selListing (some docAbsolute)).1 := by
  have h1 : categoriesStep selListing docAbsolute = .ok none := rfl
  have h2 : xpathOf selListing docAbsolute "business_urls" =
      .ok [.elem "ad" [], .str "https://www.yellowpages.com/a", .str "/rel"] := rfl
  have h3 : pageContentStep selListing docAbsolute = .ok "" := rfl
  have h4 : matchesNoResults "" = false := by decide
  exact ⟨h1, h2, h3, h4,
    (c10_link_normalization selListing docAbsolute
      [.elem "ad" [], .str "https://www.yellowpages.com/a", .str "/rel"]
      none "" h1 h2 h3 h4).2.2 (by decide)⟩
